import Mathlib

/-
Verification development for the breadcrumb-panel plugin
(src/breadcrumb-panel.py).  The Python source is shallowly embedded:
pure helpers become Lean functions over `List Char` / `String`, the
module-level mutable `STATE` becomes an explicit `PState` record that the
scheduling and callback steps transform, and the Sublime view is a
snapshot record `ViewSnap` carrying exactly the data the plugin reads
(buffer lines, selection endpoints, change count, per-view settings).
-/

set_option maxRecDepth 4096

namespace BreadcrumbPanel

/-- ASCII whitespace test, modelling Python `str.strip` / `str.isspace`
for the ASCII range (the plugin strips ordinary source text). -/
def isPySpace (c : Char) : Bool :=
  c == ' ' || c == '\t' || c == '\n' || c == '\r' || c == '\x0b' || c == '\x0c'

/-- Model of Python `s.lstrip()` on the character list of a string. -/
def lstripL (l : List Char) : List Char := l.dropWhile isPySpace

/-- Model of Python `s.rstrip()` on the character list of a string. -/
def rstripL (l : List Char) : List Char := (l.reverse.dropWhile isPySpace).reverse

/-- Model of Python `s.strip()` on the character list of a string. -/
def stripL (l : List Char) : List Char := lstripL (rstripL l)

/-- Model of Python `text.rstrip()` (the text stored into each crumb by
`_find_breadcrumb_lines`). -/
def rstrip (s : String) : String := String.mk (rstripL s.data)

/-- Embeds `_is_blank`: `text.strip() == ""`. -/
def isBlank (s : String) : Bool := (stripL s.data).isEmpty

/-- Character set used by `_is_only_closer`: membership in the Python
string literal `")]},:"`. -/
def closerChar (c : Char) : Bool :=
  c == ')' || c == ']' || c == '}' || c == ',' || c == ':'

/-- Embeds `_is_only_closer`: the stripped text is non-empty and every
character belongs to `")]},:"`. -/
def isOnlyCloser (s : String) : Bool :=
  !(stripL s.data).isEmpty && (stripL s.data).all closerChar

/-- Embeds the `tab_size = int(view.settings().get("tab_size") or 4)`
normalisation in `_leading_indent_units`: a missing or zero setting
(falsy in Python) falls back to 4. -/
def effectiveTabSize (t : Nat) : Nat := if t = 0 then 4 else t

/-- Embeds the column-accumulation loop of `_leading_indent_units`:
a space adds one column, a tab advances the column to the next multiple
of the tab size, any other character stops the scan. -/
def indentCols (tabSize : Nat) : List Char → Nat → Nat
  | [], cols => cols
  | ch :: rest, cols =>
    if ch = ' ' then indentCols tabSize rest (cols + 1)
    else if ch = '\t' then indentCols tabSize rest (cols + (tabSize - cols % tabSize))
    else cols

/-- Embeds `_leading_indent_units`: accumulated columns divided (floor)
by the effective tab size. -/
def leadingIndentUnits (tabSize : Nat) (s : String) : Nat :=
  indentCols (effectiveTabSize tabSize) s.data 0 / effectiveTabSize tabSize

/-- One entry of the resolved breadcrumb chain: the tuple
`(line number (1-indexed), rstripped text, indent units)` produced by
`_find_breadcrumb_lines`. -/
structure Crumb where
  lineNo : Nat
  text : String
  units : Nat
deriving DecidableEq, Repr

/-- Embeds the `while i >= 0 and target_units > 0 and scanned < max_scan`
walk of `_find_breadcrumb_lines`.  The first argument is `i + 1` for the
Python index `i` (zero means the walk has passed the top of the buffer);
`tu` is `target_units`, `sc` is `scanned`, `out` the accumulator that is
appended to exactly as in the source and reversed by the caller. -/
def scanLoop (tabSize maxScan : Nat) (buffer : List String) :
    Nat → Nat → Nat → List Crumb → List Crumb
  | 0, _, _, out => out
  | i + 1, tu, sc, out =>
    if tu = 0 then out
    else if maxScan ≤ sc then out
    else if isBlank (buffer.getD i "") then
      scanLoop tabSize maxScan buffer i tu (sc + 1) out
    else if leadingIndentUnits tabSize (buffer.getD i "") < tu ∧
            isOnlyCloser (buffer.getD i "") = false then
      if leadingIndentUnits tabSize (buffer.getD i "") = 0 then
        out ++ [⟨i + 1, rstrip (buffer.getD i ""),
                leadingIndentUnits tabSize (buffer.getD i "")⟩]
      else
        scanLoop tabSize maxScan buffer i
          (leadingIndentUnits tabSize (buffer.getD i "")) (sc + 1)
          (out ++ [⟨i + 1, rstrip (buffer.getD i ""),
                   leadingIndentUnits tabSize (buffer.getD i "")⟩])
    else scanLoop tabSize maxScan buffer i tu (sc + 1) out

/-- Embeds `_find_breadcrumb_lines`: bail out on an empty buffer, clamp
the row, return the empty chain when the caret line has zero indent
units, otherwise run the upward walk and reverse its accumulator. -/
def findBreadcrumbLines (tabSize : Nat) (buffer : List String)
    (row maxScan : Nat) : List Crumb :=
  if buffer.isEmpty then []
  else if leadingIndentUnits tabSize (buffer.getD (min row (buffer.length - 1)) "") = 0 then []
  else
    (scanLoop tabSize maxScan buffer (min row (buffer.length - 1))
      (leadingIndentUnits tabSize (buffer.getD (min row (buffer.length - 1)) "")) 0 []).reverse

/-- Visit counter for the same walk: `scanVisits` follows the branches of
`scanLoop` step for step and returns how many lines the walk reads
(blank lines included, since `scanned += 1` happens before the blank
check in the source). -/
def scanVisits (tabSize maxScan : Nat) (buffer : List String) :
    Nat → Nat → Nat → Nat
  | 0, _, _ => 0
  | i + 1, tu, sc =>
    if tu = 0 then 0
    else if maxScan ≤ sc then 0
    else if isBlank (buffer.getD i "") then
      scanVisits tabSize maxScan buffer i tu (sc + 1) + 1
    else if leadingIndentUnits tabSize (buffer.getD i "") < tu ∧
            isOnlyCloser (buffer.getD i "") = false then
      if leadingIndentUnits tabSize (buffer.getD i "") = 0 then 1
      else
        scanVisits tabSize maxScan buffer i
          (leadingIndentUnits tabSize (buffer.getD i "")) (sc + 1) + 1
    else scanVisits tabSize maxScan buffer i tu (sc + 1) + 1

/-- Right-alignment in a fixed-width field, modelling the Python format
spec in the f-string of `_format_breadcrumbs` (no truncation when the
item is wider than the field). -/
def rightAlign (w : Nat) (s : String) : String :=
  String.mk (List.replicate (w - s.length) ' ') ++ s

/-- Model of Python `"\n".join(lines)`. -/
def joinNL : List String → String
  | [] => ""
  | [x] => x
  | x :: y :: rest => x ++ "\n" ++ joinNL (y :: rest)

/-- Newline-terminated row concatenation: each row followed by one
newline.  This is the shape the specification describes for the
formatter output. -/
def rowsConcat : List String → String
  | [] => ""
  | x :: rest => x ++ "\n" ++ rowsConcat rest

/-- Snapshot of everything the plugin reads from a Sublime view: buffer
id, buffer lines (without trailing newlines, as `view.lines` yields),
selection regions as raw `(a, b)` endpoint pairs, `change_count()`, and
the per-view settings the code consults (`tab_size`,
`max_scan_lines`). -/
structure ViewSnap where
  bufferId : Nat
  buffer : List String
  sels : List (Nat × Nat)
  changeCount : Nat
  tabSize : Nat
  maxScan : Nat
deriving DecidableEq, Repr

/-- Row of a character offset, modelling `view.rowcol(pt)[0]` for a
buffer whose lines are joined by single newlines (offsets past the end
clamp to the last row, as Sublime clamps points). -/
def rowOfOffset : List String → Nat → Nat
  | [], _ => 0
  | s :: rest, off =>
    if off ≤ s.length then 0
    else if rest.isEmpty then 0
    else rowOfOffset rest (off - (s.length + 1)) + 1

/-- Line text at a row, modelling `view.substr(view.line(pt))`. -/
def lineAt (buffer : List String) (row : Nat) : String := buffer.getD row ""

/-- Embeds `_current_row_and_units`: `(-1, 0)` when the selection list is
empty, otherwise the row of the first region's `begin()` and the indent
units of that row's line. -/
def currentRowAndUnits (v : ViewSnap) : Int × Nat :=
  match v.sels with
  | [] => (-1, 0)
  | s :: _ =>
    ((rowOfOffset v.buffer (min s.1 s.2) : Nat),
     leadingIndentUnits v.tabSize (lineAt v.buffer (rowOfOffset v.buffer (min s.1 s.2))))

/-- Caret offset used by `_format_breadcrumbs`: `sels[0].begin()`. -/
def caretOf (v : ViewSnap) : Nat :=
  match v.sels with
  | [] => 0
  | s :: _ => min s.1 s.2

/-- Embeds `_format_breadcrumbs`: "Multiple contexts" unless exactly one
selection, "No indent" for an empty chain, otherwise one formatted row
per crumb joined by newlines with a final newline. -/
def formatBreadcrumbs (v : ViewSnap) : String :=
  if v.sels.length ≠ 1 then "Multiple contexts\n"
  else if (findBreadcrumbLines v.tabSize v.buffer
            (rowOfOffset v.buffer (caretOf v)) v.maxScan).isEmpty then "No indent\n"
  else
    joinNL ((findBreadcrumbLines v.tabSize v.buffer
              (rowOfOffset v.buffer (caretOf v)) v.maxScan).map
      (fun c => rightAlign 6 (toString c.lineNo) ++ ":  " ++ c.text)) ++ "\n"

/-- The cheap context snapshot `(row, indent_units, change_count)` stored
in `STATE.context_by_buffer` (keyed by buffer id).  `row` is `Int`
because `_current_row_and_units` yields `-1` for an empty selection. -/
structure Context where
  row : Int
  units : Nat
  revision : Nat
deriving DecidableEq, Repr

/-- Dictionary lookup `STATE.context_by_buffer.get(buf_id)`. -/
def lookupCtx : List (Nat × Context) → Nat → Option Context
  | [], _ => none
  | (k, p) :: rest, b => if k = b then some p else lookupCtx rest b

/-- Dictionary store `STATE.context_by_buffer[buf_id] = ctx` (a prepend
shadows any earlier entry for the same key under `lookupCtx`). -/
def updateCtx (cache : List (Nat × Context)) (b : Nat) (p : Context) :
    List (Nat × Context) := (b, p) :: cache

/-- Embeds the cheap skip check of `_schedule_update`:
`prev = STATE.context_by_buffer.get(buf_id); if prev and prev == (row, units, cc)`
(a stored triple is always truthy, so the test is presence plus exact
equality of all fields, with the buffer id matched by the cache key). -/
def shouldSkipGate (cache : List (Nat × Context)) (bufId : Nat)
    (cand : Context) : Bool :=
  match lookupCtx cache bufId with
  | none => false
  | some p => decide (p = cand)

/-- The candidate context `(row, units, change_count)` snapshotted by
`_schedule_update` for a view. -/
def candCtx (v : ViewSnap) : Context :=
  ⟨(currentRowAndUnits v).1, (currentRowAndUnits v).2, v.changeCount⟩

/-- Embeds the module-level `STATE` (`BreadcrumbPanelState`) plus the
panel as the observable render target: `renderedText` is the panel
content written by `_set_panel_text` and `renderCount` counts committed
renders, so that "no observable effect" is expressible. -/
structure PState where
  enabled : Bool
  lastKey : Option (Nat × Int × List (Nat × Nat))
  seq : Nat
  lastScheduled : Nat
  contextByBuffer : List (Nat × Context)
  renderedText : Option String
  renderCount : Nat
deriving DecidableEq, Repr

/-- Embeds `_schedule_update` up to the point where `_run` is handed to
`sublime.set_timeout_async`: early-outs for disabled state, hidden
panel and missing source view, the cheap-context skip, then the token
bump `seq += 1; last_scheduled = token`.  Returns the new state and the
token of the scheduled callback (if one was scheduled). -/
def scheduleUpdate (st : PState) (panelVisible : Bool)
    (src : Option ViewSnap) : PState × Option Nat :=
  if st.enabled = false then (st, none)
  else if panelVisible = false then (st, none)
  else
    match src with
    | none => (st, none)
    | some v =>
      if shouldSkipGate st.contextByBuffer v.bufferId (candCtx v) then (st, none)
      else ({ st with seq := st.seq + 1, lastScheduled := st.seq + 1 },
            some (st.seq + 1))

/-- The row component of the render key built in `_run`:
`view.rowcol(sels[0].begin())[0] if sels else -1`. -/
def runKeyRow (v : ViewSnap) : Int :=
  match v.sels with
  | [] => -1
  | s :: _ => (rowOfOffset v.buffer (min s.1 s.2) : Nat)

/-- Embeds the deferred `_run` closure: drop the callback when its token
is stale, re-resolve the source view, rebuild the render key
`(buffer_id, row, sels_hash)`, skip (refreshing only the cheap context
cache) when the key equals `STATE.last_key`, otherwise format the
breadcrumbs, write the panel and record the context that produced it. -/
def runCallback (st : PState) (token : Nat) (src : Option ViewSnap) : PState :=
  if token ≠ st.lastScheduled then st
  else
    match src with
    | none => st
    | some v =>
      if st.lastKey = some (v.bufferId, runKeyRow v, v.sels) then
        let refreshed :=
          updateCtx st.contextByBuffer v.bufferId
            (Context.mk (runKeyRow v) (currentRowAndUnits v).2 v.changeCount)
        { st with contextByBuffer := refreshed }
      else
        { st with
          lastKey := some (v.bufferId, runKeyRow v, v.sels),
          renderedText := some (formatBreadcrumbs v),
          renderCount := st.renderCount + 1,
          contextByBuffer := updateCtx st.contextByBuffer v.bufferId (candCtx v) }

/-- The state after `_schedule_update` issues a token:
`seq += 1; last_scheduled = seq` (abbreviation used by the lemmas). -/
def bumped (st : PState) : PState :=
  { st with seq := st.seq + 1, lastScheduled := st.seq + 1 }

/-- A burst of `_schedule_update` calls: folds `scheduleUpdate` over a
list of `(panel visible, source view)` events and collects the issued
tokens in issuance order. -/
def burst : PState → List (Bool × Option ViewSnap) → PState × List Nat
  | st, [] => (st, [])
  | st, e :: es =>
    match scheduleUpdate st e.1 e.2 with
    | (st1, none) => burst st1 es
    | (st1, some t) => ((burst st1 es).1, t :: (burst st1 es).2)

/-- Model of Python `int(s)` for ASCII decimal literals: optional
surrounding whitespace, optional single sign, then digits with single
underscores allowed only between digits.  `parseDU` is the digit /
underscore state machine (`prevDigit` records whether the previous
character was a digit). -/
def parseDU : Bool → Nat → List Char → Option Nat
  | prevDigit, acc, [] => if prevDigit then some acc else none
  | prevDigit, acc, c :: rest =>
    if c = '_' then
      if prevDigit then parseDU false acc rest else none
    else if '0' ≤ c ∧ c ≤ '9' then
      parseDU true (acc * 10 + (c.toNat - '0'.toNat)) rest
    else none

/-- Model of Python `int(s)` returning `none` where Python raises
`ValueError`. -/
def pythonInt (s : String) : Option Int :=
  match stripL s.data with
  | [] => none
  | c :: rest =>
    if c = '+' then (parseDU false 0 rest).map (fun n => (n : Int))
    else if c = '-' then (parseDU false 0 rest).map (fun n => -(n : Int))
    else (parseDU false 0 (c :: rest)).map (fun n => (n : Int))

/-- Embeds the parsing part of `_navigate_from_panel`: strip the clicked
line, ignore it when empty or colon-free, otherwise split at the first
colon and parse the prefix with `int` (`none` models the silently
swallowed `ValueError`). -/
def navResolve (clicked : String) : Option Int :=
  if (stripL clicked.data).isEmpty then none
  else if !((stripL clicked.data).any (fun c => c == ':')) then none
  else pythonInt (String.mk ((stripL clicked.data).takeWhile (fun c => !(c == ':'))))

/-- Embeds the destination of `_navigate_from_panel`:
`src.text_point(max(0, line_no - 1), 0)` — the 0-indexed row the caret
is moved to, `none` when navigation is silently skipped. -/
def navTargetRow (clicked : String) : Option Int :=
  (navResolve clicked).map (fun lineNo => max 0 (lineNo - 1))

/-! Concrete scenario data used by the evaluation theorems below. -/

/-- View before the edit: caret at offset 13 (row 1, column 4 of
`"    x = 1"`), revision 7. -/
def viewBefore : ViewSnap := ⟨42, ["def f():", "    x = 1"], [(13, 13)], 7, 4, 5000⟩

/-- View after an equal-length edit before the caret (`"def f():"`
became `"def g():"`): selection endpoints and caret row unchanged,
revision bumped to 8. -/
def viewAfter : ViewSnap := ⟨42, ["def g():", "    x = 1"], [(13, 13)], 8, 4, 5000⟩

/-- Fresh enabled plugin state (panel just shown, empty caches). -/
def freshState : PState := ⟨true, none, 0, 0, [], none, 0⟩

/-- State after the first update committed its render. -/
def stateAfterFirstRender : PState :=
  runCallback (scheduleUpdate freshState true (some viewBefore)).1 1 (some viewBefore)

/-- The scheduling step triggered by the revision-only edit. -/
def schedAfterEdit : PState × Option Nat :=
  scheduleUpdate stateAfterFirstRender true (some viewAfter)

/-- State after the edit-triggered callback ran. -/
def stateAfterEditRun : PState := runCallback schedAfterEdit.1 2 (some viewAfter)

/-- Two-selection view (for the "Multiple contexts" case). -/
def viewMulti : ViewSnap := ⟨7, ["def f():", "    if x:"], [(0, 0), (3, 3)], 1, 4, 5000⟩

/-- Caret on an unindented row (for the "No indent" case). -/
def viewTopLevel : ViewSnap := ⟨7, ["def f():", "    if x:"], [(0, 0)], 1, 4, 5000⟩

/-- The specification's end-to-end scenario: caret on row 2 of a
three-line buffer with two ancestors. -/
def viewNested : ViewSnap :=
  ⟨7, ["def f():", "    if x:", "        return 1"], [(23, 23)], 1, 4, 5000⟩

/-- A burst of three scheduling events against the fresh state (the
context cache is only refreshed by callbacks, so all three issue
tokens). -/
def burstEvents : List (Bool × Option ViewSnap) :=
  [(true, some viewBefore), (true, some viewBefore), (true, some viewBefore)]

/-! Helper lemmas. -/

lemma rstripL_idem (l : List Char) : rstripL (rstripL l) = rstripL l := by
  unfold rstripL
  rw [List.reverse_reverse, List.dropWhile_idempotent isPySpace l.reverse]

lemma stripL_rstripL (l : List Char) : stripL (rstripL l) = stripL l := by
  unfold stripL
  rw [rstripL_idem]

lemma isBlank_rstrip (s : String) : isBlank (rstrip s) = isBlank s := by
  show (stripL (rstripL s.data)).isEmpty = (stripL s.data).isEmpty
  rw [stripL_rstripL]

lemma isOnlyCloser_rstrip (s : String) : isOnlyCloser (rstrip s) = isOnlyCloser s := by
  show (!(stripL (rstripL s.data)).isEmpty && (stripL (rstripL s.data)).all closerChar) =
       (!(stripL s.data).isEmpty && (stripL s.data).all closerChar)
  rw [stripL_rstripL]

lemma joinNL_rowsConcat : ∀ l : List String, l ≠ [] → joinNL l ++ "\n" = rowsConcat l := by
  intro l
  induction l with
  | nil => intro h; exact absurd rfl h
  | cons x rest ih =>
    intro _
    cases rest with
    | nil =>
      show x ++ "\n" = rowsConcat [x]
      simp [rowsConcat, String.append_empty]
    | cons y rest2 =>
      show (x ++ "\n" ++ joinNL (y :: rest2)) ++ "\n" = x ++ "\n" ++ rowsConcat (y :: rest2)
      rw [String.append_assoc, ih (List.cons_ne_nil y rest2)]

lemma scanVisits_le (tabSize maxScan : Nat) (buffer : List String) :
    ∀ i tu sc, scanVisits tabSize maxScan buffer i tu sc ≤ maxScan - sc := by
  intro i
  induction i with
  | zero =>
    intro tu sc
    simp only [scanVisits]
    exact Nat.zero_le _
  | succ n ih =>
    intro tu sc
    simp only [scanVisits]
    split
    next => exact Nat.zero_le _
    next h0 =>
      split
      next => exact Nat.zero_le _
      next h1 =>
        split
        next hb =>
          have := ih tu (sc + 1)
          omega
        next hb =>
          split
          next hacc =>
            split
            next => omega
            next =>
              have := ih (leadingIndentUnits tabSize (buffer.getD n "")) (sc + 1)
              omega
          next hacc =>
            have := ih tu (sc + 1)
            omega

/-! Claim theorems. -/

/-- Claim C5: an empty buffer yields the empty chain, and a target line
(after clamping into the valid range) whose measured indent units are
zero yields the empty chain; in both cases `_find_breadcrumb_lines`
returns before its upward walk reads any preceding line. -/
theorem c5_zero_indent_empty_chain :
    ∀ (tabSize : Nat) (buffer : List String) (row maxScan : Nat),
      (buffer = [] → findBreadcrumbLines tabSize buffer row maxScan = []) ∧
      (leadingIndentUnits tabSize (buffer.getD (min row (buffer.length - 1)) "") = 0 →
        findBreadcrumbLines tabSize buffer row maxScan = []) := by
  intro tabSize buffer row maxScan
  constructor
  · intro h
    subst h
    rfl
  · intro h
    unfold findBreadcrumbLines
    by_cases hb : buffer.isEmpty
    · simp [hb]
    · simp [hb]
      intro hcon
      exact absurd (by simpa using h) hcon

/-- Claim C5 witness: concrete instances of both hypotheses. -/
theorem c5_zero_indent_empty_chain_witness :
    findBreadcrumbLines 4 [] 0 5000 = [] ∧
    findBreadcrumbLines 4 ["def f():", "    if x:"] 0 5000 = [] :=
  ⟨(c5_zero_indent_empty_chain 4 [] 0 5000).1 rfl,
   (c5_zero_indent_empty_chain 4 ["def f():", "    if x:"] 0 5000).2 (by decide)⟩

/-- Claim C9: the cheap skip check of `_schedule_update` returns true
exactly when a context is cached for the buffer id and every field
(row, indent units, revision) equals the candidate; a missing entry or
any single differing field yields false, and with the gate false (and
the feature enabled, panel visible, source view present) an update is
actually scheduled. -/
theorem c9_change_gate :
    ∀ (cache : List (Nat × Context)) (bufId : Nat) (cand : Context),
      (shouldSkipGate cache bufId cand = true ↔ lookupCtx cache bufId = some cand) ∧
      (lookupCtx cache bufId = none → shouldSkipGate cache bufId cand = false) ∧
      (∀ p, lookupCtx cache bufId = some p →
        (p.row ≠ cand.row ∨ p.units ≠ cand.units ∨ p.revision ≠ cand.revision) →
        shouldSkipGate cache bufId cand = false) ∧
      (∀ (st : PState) (v : ViewSnap), st.enabled = true →
        shouldSkipGate st.contextByBuffer v.bufferId (candCtx v) = false →
        (scheduleUpdate st true (some v)).2 = some (st.seq + 1)) := by
  intro cache bufId cand
  refine ⟨?_, ?_, ?_, ?_⟩
  · cases h : lookupCtx cache bufId with
    | none => simp [shouldSkipGate, h]
    | some p => simp [shouldSkipGate, h]
  · intro h
    simp [shouldSkipGate, h]
  · intro p hp hdiff
    simp only [shouldSkipGate, hp]
    apply decide_eq_false
    intro heq
    rcases hdiff with h | h | h <;> exact h (by rw [heq])
  · intro st v hen hskip
    simp [scheduleUpdate, hen, hskip]

/-- Claim C9 witness: concrete gate decisions (hit, field-miss, absent)
and a concrete scheduled token. -/
theorem c9_change_gate_witness :
    (shouldSkipGate [(42, ⟨1, 1, 7⟩)] 42 ⟨1, 1, 7⟩ = true) ∧
    (shouldSkipGate [(42, ⟨1, 1, 7⟩)] 42 ⟨1, 1, 8⟩ = false) ∧
    (shouldSkipGate [] 42 ⟨1, 1, 7⟩ = false) ∧
    (scheduleUpdate freshState true (some viewBefore)).2 = some 1 := by
  refine ⟨?_, ?_, ?_, ?_⟩
  · exact (c9_change_gate [(42, ⟨1, 1, 7⟩)] 42 ⟨1, 1, 7⟩).1.mpr (by decide)
  · exact (c9_change_gate [(42, ⟨1, 1, 7⟩)] 42 ⟨1, 1, 8⟩).2.2.1 ⟨1, 1, 7⟩ (by decide)
      (Or.inr (Or.inr (by decide)))
  · exact (c9_change_gate [] 42 ⟨1, 1, 7⟩).2.1 rfl
  · exact (c9_change_gate [] 42 (candCtx viewBefore)).2.2.2 freshState viewBefore rfl (by decide)

/-- Claim C7: navigation resolution is absent (a silent no-op) when the
trimmed clicked text is empty, contains no colon, or its prefix before
the first colon does not parse as an integer; a well-formed row such as
`"12:  def foo():"` resolves to 12 (the specification's examples are
checked literally). -/
theorem c7_navigation_resolution :
    (∀ s : String, (stripL s.data).isEmpty = true → navResolve s = none) ∧
    (∀ s : String, (stripL s.data).any (fun c => c == ':') = false → navResolve s = none) ∧
    (∀ s : String,
      pythonInt (String.mk ((stripL s.data).takeWhile (fun c => !(c == ':')))) = none →
      navResolve s = none) ∧
    navResolve "12:  def foo():" = some 12 ∧
    navResolve "not a crumb line" = none ∧
    navResolve "" = none ∧
    navResolve "abc:  text" = none := by
  refine ⟨?_, ?_, ?_, by decide, by decide, by decide, by decide⟩
  · intro s h
    simp [navResolve, h]
  · intro s h
    by_cases he : (stripL s.data).isEmpty
    · simp [navResolve, he]
    · simp [navResolve, he, h]
  · intro s h
    by_cases he : (stripL s.data).isEmpty
    · simp [navResolve, he]
    · by_cases ha : (stripL s.data).any (fun c => c == ':')
      · simp [navResolve, he, ha, h]
      · simp [navResolve, he, ha]

/-- Claim C7 witness: the three absent cases instantiated concretely
through the theorem's universally quantified parts. -/
theorem c7_navigation_resolution_witness :
    navResolve "   " = none ∧ navResolve "no colon here" = none ∧
    navResolve "12a:  text" = none :=
  ⟨c7_navigation_resolution.1 "   " (by decide),
   c7_navigation_resolution.2.1 "no colon here" (by decide),
   c7_navigation_resolution.2.2.1 "12a:  text" (by decide)⟩

/-- Claim C10: the navigation parser accepts any prefix Python's `int`
parses — negative numbers, surrounding whitespace, a leading plus sign,
underscore digit separators — and the destination row is clamped to
`max 0 (parsed - 1)`, so zero or negative parsed line numbers navigate
to the first buffer line rather than being treated as absent. -/
theorem c10_navigation_python_int :
    navResolve "-3:  x" = some (-3) ∧
    navTargetRow "-3:  x" = some 0 ∧
    navTargetRow "0:  x" = some 0 ∧
    navResolve "1_2:  y" = some 12 ∧
    navResolve "+7:  z" = some 7 ∧
    navResolve "12 :  w" = some 12 ∧
    (∀ (s : String) (n : Int), navResolve s = some n →
      navTargetRow s = some (max 0 (n - 1))) ∧
    (∀ (s : String) (k : Int), navTargetRow s = some k → 0 ≤ k) := by
  refine ⟨by decide, by decide, by decide, by decide, by decide, by decide, ?_, ?_⟩
  · intro s n h
    unfold navTargetRow
    rw [h]
    rfl
  · intro s k h
    unfold navTargetRow at h
    rcases Option.map_eq_some'.mp h with ⟨n, _, hk⟩
    rw [← hk]
    exact le_max_left 0 _

/-- Claim C10 witness: the clamping facts instantiated at concrete
clicked lines. -/
theorem c10_navigation_python_int_witness :
    navTargetRow "12:  def foo():" = some 11 ∧ (0 : Int) ≤ 11 :=
  ⟨c10_navigation_python_int.2.2.2.2.2.2.1 "12:  def foo():" 12 (by decide),
   c10_navigation_python_int.2.2.2.2.2.2.2 "12:  def foo():" 11
     (c10_navigation_python_int.2.2.2.2.2.2.1 "12:  def foo():" 12 (by decide))⟩

/-- Claim C8: the indent measure follows the specified algorithm — a
space adds one column, a tab advances the column to the next multiple
of the tab width (the arithmetic conjunct shows the advanced column is
a multiple, strictly greater, and at most one tab width further),
scanning stops at the first other character, the result is the floor
division of columns by the tab width — and it is deterministic. -/
theorem c8_indent_measure :
    ∀ tw : Nat, 0 < tw →
      (∀ c, indentCols tw [] c = c) ∧
      (∀ rest c, indentCols tw (' ' :: rest) c = indentCols tw rest (c + 1)) ∧
      (∀ rest c, indentCols tw ('\t' :: rest) c =
        indentCols tw rest (c + (tw - c % tw))) ∧
      (∀ c, (c + (tw - c % tw)) % tw = 0 ∧ c < c + (tw - c % tw) ∧
        c + (tw - c % tw) ≤ c + tw) ∧
      (∀ (ch : Char) rest c, ch ≠ ' ' → ch ≠ '\t' →
        indentCols tw (ch :: rest) c = c) ∧
      (∀ s : String, leadingIndentUnits tw s = indentCols tw s.data 0 / tw) ∧
      (∀ s : String, leadingIndentUnits tw s = leadingIndentUnits tw s) := by
  intro tw htw
  have htw0 : tw ≠ 0 := Nat.pos_iff_ne_zero.mp htw
  refine ⟨fun c => rfl, ?_, ?_, ?_, ?_, ?_, fun s => rfl⟩
  · intro rest c
    simp [indentCols]
  · intro rest c
    simp only [indentCols]
    rw [if_neg (by decide)]
    simp
  · intro c
    have h2 : c % tw < tw := Nat.mod_lt c htw
    have h3 : tw * (c / tw) + c % tw = c := Nat.div_add_mod c tw
    have h1 : c + (tw - c % tw) = tw * (c / tw + 1) := by
      rw [Nat.mul_add, Nat.mul_one]
      omega
    refine ⟨?_, by omega, by omega⟩
    rw [h1]
    exact Nat.mul_mod_right _ _
  · intro ch rest c h1 h2
    simp only [indentCols]
    rw [if_neg h1, if_neg h2]
  · intro s
    unfold leadingIndentUnits effectiveTabSize
    rw [if_neg htw0]

/-- Claim C8 witness: the tab-advance arithmetic and the equations at a
concrete positive tab width and concrete line texts. -/
theorem c8_indent_measure_witness :
    indentCols 4 [' ', ' ', 'x'] 0 = indentCols 4 [' ', 'x'] 1 ∧
    indentCols 4 ['\t', 'x'] 2 = indentCols 4 ['x'] 4 ∧
    (6 + (4 - 6 % 4)) % 4 = 0 ∧
    leadingIndentUnits 4 "  \tx" = indentCols 4 [' ', ' ', '\t', 'x'] 0 / 4 := by
  have h := c8_indent_measure 4 (by decide)
  refine ⟨h.2.1 [' ', 'x'] 0, ?_, (h.2.2.2.1 6).1, ?_⟩
  · have := h.2.2.1 ['x'] 2
    simpa using this
  · have := h.2.2.2.2.2.1 "  \tx"
    simpa using this

/-- Claim C1 (code-bug evidence): after a committed render, an edit that
bumps the revision while leaving the caret row and the selection
endpoints unchanged produces a candidate context differing from the
cached one in the revision field only; `_schedule_update`'s cheap gate
correctly passes and schedules a callback, but `_run`'s
`last_key` comparison — whose key `(buffer_id, row, sels_hash)` omits
the change count — suppresses the re-render: the render counter does
not advance and the panel keeps the stale text, although a fresh format
of the edited buffer differs.  The claim (every context differing in
any of the four fields is re-rendered, in particular on a
revision-only change) is therefore violated by the code. -/
theorem c1_revision_only_edit_not_rerendered :
    candCtx viewAfter ≠ candCtx viewBefore ∧
    (candCtx viewAfter).row = (candCtx viewBefore).row ∧
    (candCtx viewAfter).units = (candCtx viewBefore).units ∧
    (candCtx viewAfter).revision ≠ (candCtx viewBefore).revision ∧
    lookupCtx stateAfterFirstRender.contextByBuffer viewAfter.bufferId =
      some (candCtx viewBefore) ∧
    stateAfterFirstRender.renderedText = some "     1:  def f():\n" ∧
    schedAfterEdit.2 = some 2 ∧
    stateAfterEditRun.renderCount = stateAfterFirstRender.renderCount ∧
    stateAfterEditRun.renderedText = some "     1:  def f():\n" ∧
    formatBreadcrumbs viewAfter = "     1:  def g():\n" := by
  refine ⟨by decide, rfl, rfl, by decide, by decide, rfl, rfl, rfl, rfl, rfl⟩

/-- Claim C3: the formatter's output is exactly one of three forms —
`"Multiple contexts\n"` whenever the selection count differs from one
(for every buffer content, so the ancestor chain plays no part),
`"No indent\n"` when the resolved chain is empty, and otherwise one row
per ancestor in chain order, each row the width-6 right-aligned
1-indexed line number, a colon, two spaces, the line text, and a
newline. -/
theorem c3_formatter_output :
    (∀ v : ViewSnap, v.sels.length ≠ 1 → formatBreadcrumbs v = "Multiple contexts\n") ∧
    (∀ v : ViewSnap, v.sels.length = 1 →
      findBreadcrumbLines v.tabSize v.buffer (rowOfOffset v.buffer (caretOf v)) v.maxScan
        = [] →
      formatBreadcrumbs v = "No indent\n") ∧
    (∀ v : ViewSnap, v.sels.length = 1 →
      findBreadcrumbLines v.tabSize v.buffer (rowOfOffset v.buffer (caretOf v)) v.maxScan
        ≠ [] →
      formatBreadcrumbs v =
        rowsConcat ((findBreadcrumbLines v.tabSize v.buffer
          (rowOfOffset v.buffer (caretOf v)) v.maxScan).map
          (fun c => rightAlign 6 (toString c.lineNo) ++ ":  " ++ c.text))) := by
  refine ⟨?_, ?_, ?_⟩
  · intro v h
    unfold formatBreadcrumbs
    rw [if_pos h]
  · intro v h1 h2
    unfold formatBreadcrumbs
    rw [if_neg (by simp [h1]), if_pos (by simp [h2])]
  · intro v h1 h2
    unfold formatBreadcrumbs
    rw [if_neg (by simp [h1]), if_neg (by simp [h2])]
    exact joinNL_rowsConcat _ (by simpa using h2)

/-- Claim C3 witness: the three output forms at the specification's
concrete end-to-end scenarios. -/
theorem c3_formatter_output_witness :
    formatBreadcrumbs viewMulti = "Multiple contexts\n" ∧
    formatBreadcrumbs viewTopLevel = "No indent\n" ∧
    formatBreadcrumbs viewNested =
      rowsConcat ((findBreadcrumbLines viewNested.tabSize viewNested.buffer
        (rowOfOffset viewNested.buffer (caretOf viewNested)) viewNested.maxScan).map
        (fun c => rightAlign 6 (toString c.lineNo) ++ ":  " ++ c.text)) :=
  ⟨c3_formatter_output.1 viewMulti (by decide),
   c3_formatter_output.2.1 viewTopLevel rfl (by decide),
   c3_formatter_output.2.2 viewNested rfl (by decide)⟩

/-- Claim C6: the backward walk of the resolver (structurally recursive,
hence terminating) reads at most `maxScan` lines above the target row
regardless of buffer length, and a blank visited line still consumes
one unit of the scan budget. -/
theorem c6_scan_bound :
    (∀ (tabSize maxScan : Nat) (buffer : List String) (i tu : Nat),
      scanVisits tabSize maxScan buffer i tu 0 ≤ maxScan) ∧
    (∀ (tabSize maxScan : Nat) (buffer : List String) (i tu sc : Nat),
      tu ≠ 0 → sc < maxScan → isBlank (buffer.getD i "") = true →
      scanVisits tabSize maxScan buffer (i + 1) tu sc =
        scanVisits tabSize maxScan buffer i tu (sc + 1) + 1) := by
  constructor
  · intro tabSize maxScan buffer i tu
    have h := scanVisits_le tabSize maxScan buffer i tu 0
    simpa using h
  · intro tabSize maxScan buffer i tu sc h0 h1 hb
    simp only [scanVisits]
    rw [if_neg h0, if_neg (by omega), if_pos hb]

/-- Claim C6 witness: a four-line buffer scanned with budget 2, and a
blank line consuming one budget unit. -/
theorem c6_scan_bound_witness :
    scanVisits 4 2 ["a", "b", "c", "d"] 4 3 0 ≤ 2 ∧
    scanVisits 4 10 ["x", ""] 2 3 0 = scanVisits 4 10 ["x", ""] 1 3 1 + 1 :=
  ⟨c6_scan_bound.1 4 2 ["a", "b", "c", "d"] 4 3,
   c6_scan_bound.2 4 10 ["x", ""] 1 3 0 (by decide) (by decide) (by decide)⟩

lemma scheduleUpdate_cases (st : PState) (b : Bool) (src : Option ViewSnap) :
    scheduleUpdate st b src = (st, none) ∨
    scheduleUpdate st b src = (bumped st, some (st.seq + 1)) := by
  unfold scheduleUpdate
  split
  · exact Or.inl rfl
  · split
    · exact Or.inl rfl
    · split
      · exact Or.inl rfl
      · split
        · exact Or.inl rfl
        · exact Or.inr rfl

lemma burst_cons_none {st st1 : PState} {e : Bool × Option ViewSnap}
    {es : List (Bool × Option ViewSnap)}
    (h : scheduleUpdate st e.1 e.2 = (st1, none)) :
    burst st (e :: es) = burst st1 es := by
  simp [burst, h]

lemma burst_cons_some {st st1 : PState} {t : Nat} {e : Bool × Option ViewSnap}
    {es : List (Bool × Option ViewSnap)}
    (h : scheduleUpdate st e.1 e.2 = (st1, some t)) :
    burst st (e :: es) = ((burst st1 es).1, t :: (burst st1 es).2) := by
  simp [burst, h]

lemma burst_inv (es : List (Bool × Option ViewSnap)) :
    ∀ st : PState,
      st.seq ≤ (burst st es).1.seq ∧
      (∀ t ∈ (burst st es).2, st.seq < t) ∧
      ((burst st es).2).Pairwise (fun a b => a < b) ∧
      ((burst st es).2 = [] → (burst st es).1.lastScheduled = st.lastScheduled) ∧
      ((burst st es).2 ≠ [] →
        (burst st es).2.getLast? = some ((burst st es).1.lastScheduled)) := by
  induction es with
  | nil =>
    intro st
    refine ⟨le_refl _, ?_, ?_, fun _ => rfl, ?_⟩
    · intro t ht
      simp [burst] at ht
    · simp [burst]
    · intro h
      exact absurd rfl h
  | cons e es ih =>
    intro st
    rcases scheduleUpdate_cases st e.1 e.2 with h | h
    · rw [burst_cons_none h]
      exact ih st
    · rw [burst_cons_some h]
      have ih1 := ih (bumped st)
      have hseq : (bumped st).seq = st.seq + 1 := rfl
      have hlsch : (bumped st).lastScheduled = st.seq + 1 := rfl
      refine ⟨?_, ?_, ?_, ?_, ?_⟩
      · exact le_trans (Nat.le_succ _) ih1.1
      · intro t ht
        rcases List.mem_cons.mp ht with rfl | hmem
        · exact Nat.lt_succ_self _
        · exact Nat.lt_of_succ_lt (ih1.2.1 t hmem)
      · rw [List.pairwise_cons]
        exact ⟨fun t hmem => ih1.2.1 t hmem, ih1.2.2.1⟩
      · intro hcon
        exact absurd hcon (List.cons_ne_nil _ _)
      · intro _
        cases hrest : (burst (bumped st) es).2 with
        | nil =>
          have hlast := ih1.2.2.2.1 hrest
          show [st.seq + 1].getLast? = some ((burst (bumped st) es).1.lastScheduled)
          rw [hlast, hlsch, List.getLast?_singleton]
        | cons r rs =>
          have hne : (burst (bumped st) es).2 ≠ [] := by
            rw [hrest]
            exact List.cons_ne_nil r rs
          have hlast := ih1.2.2.2.2 hne
          rw [hrest] at hlast
          show ((st.seq + 1) :: r :: rs).getLast? =
            some ((burst (bumped st) es).1.lastScheduled)
          rw [List.getLast?_cons_cons]
          exact hlast

/-- Claim C2: tokens are issued as a strictly increasing sequence over
any burst of scheduling calls; a callback whose token is no longer the
latest issued returns the state unchanged (no observable effect); the
most recently issued token of a non-trivial burst is exactly the
recorded `last_scheduled`, so only the final callback of the burst may
commit; and running a callback never changes the token bookkeeping, so
stale callbacks stay stale no matter the order in which the burst's
callbacks later run. -/
theorem c2_scheduler_coalescing :
    (∀ (st : PState) (t : Nat) (src : Option ViewSnap),
      t ≠ st.lastScheduled → runCallback st t src = st) ∧
    (∀ (st : PState) (es : List (Bool × Option ViewSnap)),
      ((burst st es).2).Pairwise (fun a b => a < b)) ∧
    (∀ (st : PState) (es : List (Bool × Option ViewSnap)),
      (burst st es).2 ≠ [] →
      (burst st es).2.getLast? = some ((burst st es).1.lastScheduled)) ∧
    (∀ (st : PState) (t : Nat) (src : Option ViewSnap),
      (runCallback st t src).lastScheduled = st.lastScheduled ∧
      (runCallback st t src).seq = st.seq) := by
  refine ⟨?_, ?_, ?_, ?_⟩
  · intro st t src h
    unfold runCallback
    rw [if_pos h]
  · intro st es
    exact (burst_inv es st).2.2.1
  · intro st es h
    exact (burst_inv es st).2.2.2.2 h
  · intro st t src
    unfold runCallback
    split
    · exact ⟨rfl, rfl⟩
    · split
      · exact ⟨rfl, rfl⟩
      · split
        · exact ⟨rfl, rfl⟩
        · exact ⟨rfl, rfl⟩

/-- Claim C2 witness: a burst of three scheduling events issues tokens
1, 2, 3; the final `last_scheduled` is the last issued token; and a
stale callback (token 1 of 3) leaves the state untouched. -/
theorem c2_scheduler_coalescing_witness :
    runCallback (burst freshState burstEvents).1 1 (some viewBefore) =
      (burst freshState burstEvents).1 ∧
    ((burst freshState burstEvents).2).Pairwise (fun a b => a < b) ∧
    (burst freshState burstEvents).2.getLast? =
      some ((burst freshState burstEvents).1.lastScheduled) :=
  ⟨c2_scheduler_coalescing.1 (burst freshState burstEvents).1 1 (some viewBefore)
     (by decide),
   c2_scheduler_coalescing.2.1 freshState burstEvents,
   c2_scheduler_coalescing.2.2.1 freshState burstEvents (by decide)⟩

lemma scanLoop_inv (tabSize maxScan : Nat) (buffer : List String) :
    ∀ i tu sc (out : List Crumb),
      (∀ c ∈ out, tu ≤ c.units) →
      out.Pairwise (fun a b => b.units < a.units) →
      (∀ c ∈ out, isBlank c.text = false ∧ isOnlyCloser c.text = false) →
      (scanLoop tabSize maxScan buffer i tu sc out).Pairwise
          (fun a b => b.units < a.units) ∧
        ∀ c ∈ scanLoop tabSize maxScan buffer i tu sc out,
          isBlank c.text = false ∧ isOnlyCloser c.text = false := by
  intro i
  induction i with
  | zero =>
    intro tu sc out h1 h2 h3
    simp only [scanLoop]
    exact ⟨h2, h3⟩
  | succ n ih =>
    intro tu sc out h1 h2 h3
    simp only [scanLoop]
    split
    next => exact ⟨h2, h3⟩
    next h0 =>
      split
      next => exact ⟨h2, h3⟩
      next hms =>
        split
        next hb => exact ih tu (sc + 1) out h1 h2 h3
        next hb =>
          split
          next hacc =>
            have hnb : isBlank (buffer.getD n "") = false := by
              simpa using hb
            have hout1 : ∀ c ∈ out ++ [Crumb.mk (n + 1) (rstrip (buffer.getD n ""))
                (leadingIndentUnits tabSize (buffer.getD n ""))],
                leadingIndentUnits tabSize (buffer.getD n "") ≤ c.units := by
              intro c hc
              rcases List.mem_append.mp hc with hcl | hcr
              · exact le_of_lt (lt_of_lt_of_le hacc.1 (h1 c hcl))
              · rw [List.mem_singleton.mp hcr]
            have hout2 : (out ++ [Crumb.mk (n + 1) (rstrip (buffer.getD n ""))
                (leadingIndentUnits tabSize (buffer.getD n ""))]).Pairwise
                (fun a b => b.units < a.units) := by
              rw [List.pairwise_append]
              refine ⟨h2, List.pairwise_singleton _ _, ?_⟩
              intro a ha b hbm
              rw [List.mem_singleton.mp hbm]
              exact lt_of_lt_of_le hacc.1 (h1 a ha)
            have hout3 : ∀ c ∈ out ++ [Crumb.mk (n + 1) (rstrip (buffer.getD n ""))
                (leadingIndentUnits tabSize (buffer.getD n ""))],
                isBlank c.text = false ∧ isOnlyCloser c.text = false := by
              intro c hc
              rcases List.mem_append.mp hc with hcl | hcr
              · exact h3 c hcl
              · rw [List.mem_singleton.mp hcr]
                constructor
                · rw [show (Crumb.mk (n + 1) (rstrip (buffer.getD n ""))
                      (leadingIndentUnits tabSize (buffer.getD n ""))).text =
                      rstrip (buffer.getD n "") from rfl, isBlank_rstrip]
                  exact hnb
                · rw [show (Crumb.mk (n + 1) (rstrip (buffer.getD n ""))
                      (leadingIndentUnits tabSize (buffer.getD n ""))).text =
                      rstrip (buffer.getD n "") from rfl, isOnlyCloser_rstrip]
                  exact hacc.2
            split
            next hz => exact ⟨hout2, hout3⟩
            next hz =>
              exact ih (leadingIndentUnits tabSize (buffer.getD n "")) (sc + 1) _
                hout1 hout2 hout3
          next hacc => exact ih tu (sc + 1) out h1 h2 h3

/-- Claim C4: every resolved chain has strictly increasing indent units
from its first (outermost) to its last (nearest) element, and no
element's trimmed text is blank or consists solely of characters from
the set `)]},:`. -/
theorem c4_chain_invariants :
    ∀ (tabSize : Nat) (buffer : List String) (row maxScan : Nat),
      (findBreadcrumbLines tabSize buffer row maxScan).Pairwise
          (fun a b => a.units < b.units) ∧
        (findBreadcrumbLines tabSize buffer row maxScan).all
          (fun c => !(isBlank c.text) && !(isOnlyCloser c.text)) = true := by
  intro tabSize buffer row maxScan
  by_cases hb : buffer.isEmpty
  · unfold findBreadcrumbLines
    rw [if_pos hb]
    exact ⟨List.Pairwise.nil, rfl⟩
  · by_cases hz : leadingIndentUnits tabSize
        (buffer.getD (min row (buffer.length - 1)) "") = 0
    · unfold findBreadcrumbLines
      rw [if_neg hb, if_pos hz]
      exact ⟨List.Pairwise.nil, rfl⟩
    · have heq : findBreadcrumbLines tabSize buffer row maxScan =
          (scanLoop tabSize maxScan buffer (min row (buffer.length - 1))
            (leadingIndentUnits tabSize
              (buffer.getD (min row (buffer.length - 1)) "")) 0 []).reverse := by
        unfold findBreadcrumbLines
        rw [if_neg hb, if_neg hz]
      have h := scanLoop_inv tabSize maxScan buffer (min row (buffer.length - 1))
        (leadingIndentUnits tabSize (buffer.getD (min row (buffer.length - 1)) ""))
        0 [] (by intro c hc; cases hc) List.Pairwise.nil (by intro c hc; cases hc)
      rw [heq]
      constructor
      · rw [List.pairwise_reverse]
        exact h.1
      · rw [List.all_eq_true]
        intro c hc
        rw [List.mem_reverse] at hc
        have hg := h.2 c hc
        simp [hg.1, hg.2]

end BreadcrumbPanel
